import Mathlib

/-!
Shallow embedding of the port-forwarding supervisor of `tpot`
(`src/main.go`) and of the login-user selector UI
(`src/ui/login_user_selector.go`).

Conventions of the embedding:
* Go `time.Duration` is an `Int` counting nanoseconds.
* A call of the external Forward Primitive (`tsh.Forward`) is observed
  through an oracle value of type `FwdResult`: the `error` it returned
  (`eof` for the `io.EOF` sentinel, `ok` for a nil error, `fail msg` for
  any other non-nil error whose `Error()` text is `msg`).
* A TCP dial attempt (`net.DialTimeout`) is observed through an oracle
  value of type `DialResult`.
* Goroutine spawns are recorded in the result of the embedded function
  instead of being executed.
* Blocking (`time.Sleep`, a blocking `Read`) is recorded as the number of
  nanoseconds the call blocks for.
-/

namespace Tpot

/-- Result of one invocation of the external Forward Primitive
`tsh.Forward`: the `io.EOF` sentinel, a nil error, or any other non-nil
error carrying its `Error()` text. -/
inductive FwdResult where
  | eof
  | ok
  | fail (msg : String)
deriving DecidableEq, Repr

/-- Result of one `net.DialTimeout` probe: success, or a non-nil dial
error carrying its `Error()` text. -/
inductive DialResult where
  | ok
  | fail (msg : String)
deriving DecidableEq, Repr

/-- The fields of `config.ForwardingNode` that `src/main.go` reads or
writes: the tunnel spec fields (`ListenPort`, `Host`, `UserLogin`) and the
mutable tunnel state (`Status`, `Error`). -/
structure ForwardingNode where
  ListenPort : String
  Host : String
  UserLogin : String
  Status : Bool
  Error : String
deriving DecidableEq, Repr

/-- The `fwd` supervisor struct of `src/main.go` (the external `tsh`
handle is omitted; its behaviour enters through `FwdResult` oracles). -/
structure fwd where
  nodeHost : String
  list : List ForwardingNode
  defaultUser : String
deriving Repr

/-- Go `time.Second` in nanoseconds. -/
def timeSecond : Int := 1000000000

/-- Go `time.Minute` in nanoseconds. -/
def timeMinute : Int := 60 * timeSecond

/-- The `sleepReader` struct of `src/main.go`: a reader that sleeps for
`dur` nanoseconds and then reports `io.EOF`. -/
structure sleepReader where
  dur : Int
deriving DecidableEq, Repr

/-- Embedding of `sleepReader.Read` (src/main.go:465-468): the call
`time.Sleep(f.dur)` blocks for `f.dur` nanoseconds, then the method
returns `(0, io.EOF)`. The result triple is (nanoseconds blocked, bytes
produced, error returned); the buffer `p` is never written. -/
def sleepReaderRead (f : sleepReader) (p : List UInt8) : Int × Nat × FwdResult :=
  (f.dur, 0, FwdResult.eof)

/-- The bounded-lifetime input source the Worker builds on every loop
iteration: `in := &sleepReader{dur: 3 * time.Minute}` (src/main.go:445). -/
def workerIdleSource : sleepReader := { dur := 3 * timeMinute }

/-- One iteration of the body of `fwd.execForwarding`'s `for` loop
(src/main.go:436-457), driven by the oracle `res` for what
`f.tsh.Forward` returned. Returns the node after the iteration, the
argument triple `(user, host, input source)` the Forward Primitive was
invoked with, and whether the loop continues. -/
def execStep (f : fwd) (node : ForwardingNode) (res : FwdResult) :
    ForwardingNode × (String × String × sleepReader) × Bool :=
  let node1 := if node.UserLogin = "" then { node with UserLogin := f.defaultUser } else node
  let node2 := if node1.Host = "" then { node1 with Host := f.nodeHost } else node1
  let call := (node2.UserLogin, f.nodeHost, workerIdleSource)
  match res with
  | FwdResult.eof => ({ node2 with Status := true }, call, true)
  | FwdResult.fail msg => ({ node2 with Status := false, Error := msg }, call, false)
  | FwdResult.ok => ({ node2 with Status := true }, call, true)

/-- Finite observation of `fwd.execForwarding` (src/main.go:435-458): run
loop iterations while the oracle list supplies Forward Primitive results
and the loop has not returned. Yields the final node and the list of
Forward Primitive invocations made (in order). -/
def execRun (f : fwd) : ForwardingNode → List FwdResult →
    ForwardingNode × List (String × String × sleepReader)
  | node, [] => (node, [])
  | node, r :: rs =>
    let s := execStep f node r
    if s.2.2 then
      let t := execRun f s.1 rs
      (t.1, s.2.1 :: t.2)
    else
      (s.1, [s.2.1])

/-- Embedding of Go `net.JoinHostPort`: hosts containing a colon or a
percent sign are bracketed. -/
def joinHostPort (host port : String) : String :=
  if ':' ∈ host.data ∨ '%' ∈ host.data then "[" ++ host ++ "]:" ++ port
  else host ++ ":" ++ port

/-- One health-probe goroutine body of `fwd.doHealthCheck`
(src/main.go:418-429) for one node, driven by the oracle `dial` for the
`net.DialTimeout` outcome and by `rs` for the Forward Primitive results
seen by the recovery call. Returns the dialed address, the node after the
probe, and the Forward Primitive invocations made. -/
def doHealthCheckProbe (f : fwd) (node : ForwardingNode) (dial : DialResult)
    (rs : List FwdResult) :
    String × ForwardingNode × List (String × String × sleepReader) :=
  let addr := joinHostPort "localhost" node.ListenPort
  match dial with
  | DialResult.fail msg =>
    let t := execRun f { node with Status := false, Error := msg } rs
    (addr, t.1, t.2)
  | DialResult.ok => (addr, { node with Status := true, Error := "" }, [])

/-- Observable outcome of `fwd.Run`: the error returned synchronously,
the specs for which a Worker goroutine was spawned, whether the health
checker goroutine was spawned, and whether the dashboard was invoked. -/
structure RunOutcome where
  error : Option String
  workers : List ForwardingNode
  healthChecker : Bool
  dashboard : Bool
deriving Repr

/-- Embedding of `fwd.Run` (src/main.go:401-413): empty-list guard, one
Worker goroutine per node, one health-checker goroutine, then the
blocking dashboard `ui.NewForwarding`. -/
def fwdRun (f : fwd) : RunOutcome :=
  if f.list.length = 0 then
    { error := some "forwarding configuration is empty", workers := [],
      healthChecker := false, dashboard := false }
  else
    { error := none, workers := f.list, healthChecker := true, dashboard := true }

/-- Navigation keys bound by `LoginUser.registerKeyBind`
(src/ui/login_user_selector.go:104-136). -/
inductive NavKey where
  | tab
  | arrowUp
  | arrowDown
deriving DecidableEq, Repr

/-- Initial cursor position of the selector: the Go zero value of the
`pos` field of `LoginUser`. -/
def loginUserInitPos : Int := 0

/-- Effect of one navigation key on the cursor position `pos` for a user
list of length `len` (the closures registered in
`LoginUser.registerKeyBind`, src/ui/login_user_selector.go:113-134). -/
def navStep (len pos : Int) : NavKey → Int
  | NavKey.tab => if pos < len - 1 then pos + 1 else pos
  | NavKey.arrowUp => if pos > 0 then pos - 1 else pos
  | NavKey.arrowDown => if pos < len - 1 then pos + 1 else pos

/-- Cursor position after a sequence of navigation key presses. -/
def navRun (len : Int) : Int → List NavKey → Int
  | pos, [] => pos
  | pos, k :: ks => navRun len (navStep len pos k) ks

/-- Embedding of `LoginUser.handleEnter`
(src/ui/login_user_selector.go:180-183): the indexing `l.list[l.pos]`.
Returns `none` exactly when the index is out of range (a Go panic). -/
def handleEnter (list : List String) (pos : Int) : Option String :=
  if 0 ≤ pos then list.get? pos.toNat else none

/-- Embedding of `getUserLogin` (src/main.go:184-209). Oracles:
`flagRes` for `cmd.Flags().GetString("user")`, `status` for
`node.Status` (`none` for a nil pointer), `uiNew` for
`ui.NewLoginUser`, `uiRun` for `uiUser.Run()`. A Go `(value, err)` pair
with non-nil `err` is `Except.error`. -/
def getUserLogin (flagRes : Except String String) (status : Option (List String))
    (uiNew : Except String Unit) (uiRun : Except String String) :
    Except String String :=
  match flagRes with
  | Except.error e => Except.error e
  | Except.ok userLogin =>
    if userLogin ≠ "" then Except.ok userLogin
    else
      match status with
      | none => Except.error "need to run using flag -a or -r to get the latest user login"
      | some _ =>
        match uiNew with
        | Except.error e => Except.error e
        | Except.ok _ =>
          match uiRun with
          | Except.error e => Except.error e
          | Except.ok user =>
            if user = "" then Except.error "user login must not be empty"
            else Except.ok user

/-- The simultaneous swap `a[i], a[opp] = a[opp], a[i]` of
`reverse` (src/ui/login_user_selector.go:203): both old values are read
before either index is assigned. -/
def swapAt (a : List String) (i j : Nat) : List String :=
  (a.set i (a.getD j "")).set j (a.getD i "")

/-- The descending loop of `reverse` (src/ui/login_user_selector.go:201-204):
`revLoop a k` performs the iterations `i = k-1, k-2, ..., 0`, each
swapping `a[i]` with `a[len(a)-1-i]`. -/
def revLoop : List String → Nat → List String
  | a, 0 => a
  | a, i + 1 => revLoop (swapAt a i (a.length - 1 - i)) i

/-- Embedding of `reverse` (src/ui/login_user_selector.go:197-207): copy
the input, then run the swap loop from `i = len(a)/2 - 1` down to `0`. -/
def reverse (s : List String) : List String :=
  revLoop s (s.length / 2)

/-- The node after `execForwarding`'s user defaulting assignment
(src/main.go:437-439). -/
def defaultedUser (f : fwd) (node : ForwardingNode) : ForwardingNode :=
  if node.UserLogin = "" then { node with UserLogin := f.defaultUser } else node

/-- The node after both of `execForwarding`'s defaulting assignments
(src/main.go:437-443). -/
def defaulted (f : fwd) (node : ForwardingNode) : ForwardingNode :=
  if (defaultedUser f node).Host = "" then { defaultedUser f node with Host := f.nodeHost }
  else defaultedUser f node

/-! ## Concrete example inputs used by counterexamples and witnesses -/

/-- Example supervisor defaults: default host `node-1`, default user
`root` (the scenario of spec §8). -/
def egFwd : fwd := { nodeHost := "node-1", list := [], defaultUser := "root" }

/-- Example spec whose own `Host` and `UserLogin` are set. -/
def egSpecCustom : ForwardingNode :=
  { ListenPort := "8080", Host := "custom-host", UserLogin := "alice",
    Status := false, Error := "" }

/-- Example spec carrying a stale `Error` from an earlier failure. -/
def egSpecStale : ForwardingNode :=
  { ListenPort := "8080", Host := "h", UserLogin := "u",
    Status := false, Error := "connection refused" }

/-- Example spec whose optional `Host` and `UserLogin` are empty. -/
def egSpecEmpty : ForwardingNode :=
  { ListenPort := "8080", Host := "", UserLogin := "",
    Status := false, Error := "" }

/-- Example supervisor configuration with one spec. -/
def egFwdOne : fwd :=
  { nodeHost := "node-1", list := [egSpecEmpty], defaultUser := "root" }

/-! ## Helper lemmas about the worker loop -/

lemma defaultedUser_Error (f : fwd) (node : ForwardingNode) :
    (defaultedUser f node).Error = node.Error := by
  unfold defaultedUser
  split <;> rfl

lemma defaultedUser_ListenPort (f : fwd) (node : ForwardingNode) :
    (defaultedUser f node).ListenPort = node.ListenPort := by
  unfold defaultedUser
  split <;> rfl

lemma defaultedUser_Host (f : fwd) (node : ForwardingNode) :
    (defaultedUser f node).Host = node.Host := by
  unfold defaultedUser
  split <;> rfl

lemma defaultedUser_UserLogin (f : fwd) (node : ForwardingNode) :
    (defaultedUser f node).UserLogin =
      (if node.UserLogin = "" then f.defaultUser else node.UserLogin) := by
  unfold defaultedUser
  split <;> simp_all

lemma execStep_eof (f : fwd) (node : ForwardingNode) :
    execStep f node FwdResult.eof =
      ({ defaulted f node with Status := true },
       ((defaulted f node).UserLogin, f.nodeHost, workerIdleSource), true) := by
  rfl

lemma execStep_ok (f : fwd) (node : ForwardingNode) :
    execStep f node FwdResult.ok =
      ({ defaulted f node with Status := true },
       ((defaulted f node).UserLogin, f.nodeHost, workerIdleSource), true) := by
  rfl

lemma execStep_fail (f : fwd) (node : ForwardingNode) (msg : String) :
    execStep f node (FwdResult.fail msg) =
      ({ defaulted f node with Status := false, Error := msg },
       ((defaulted f node).UserLogin, f.nodeHost, workerIdleSource), false) := by
  rfl

lemma defaulted_Error (f : fwd) (node : ForwardingNode) :
    (defaulted f node).Error = node.Error := by
  unfold defaulted
  split <;> simp [defaultedUser_Error]

lemma defaulted_ListenPort (f : fwd) (node : ForwardingNode) :
    (defaulted f node).ListenPort = node.ListenPort := by
  unfold defaulted
  split <;> simp [defaultedUser_ListenPort]

lemma defaulted_UserLogin (f : fwd) (node : ForwardingNode) :
    (defaulted f node).UserLogin =
      (if node.UserLogin = "" then f.defaultUser else node.UserLogin) := by
  unfold defaulted
  split <;> simp [defaultedUser_UserLogin]

lemma defaulted_Host (f : fwd) (node : ForwardingNode) :
    (defaulted f node).Host = (if node.Host = "" then f.nodeHost else node.Host) := by
  unfold defaulted
  rw [defaultedUser_Host]
  split <;> simp_all [defaultedUser_Host]

lemma execRun_cons_cont (f : fwd) (node : ForwardingNode) (r : FwdResult)
    (rs : List FwdResult) (h : (execStep f node r).2.2 = true) :
    execRun f node (r :: rs) =
      ((execRun f (execStep f node r).1 rs).1,
       (execStep f node r).2.1 :: (execRun f (execStep f node r).1 rs).2) := by
  simp only [execRun]
  rw [h]
  simp

lemma execRun_replicate_eof (f : fwd) :
    ∀ (n : Nat) (node : ForwardingNode),
      (execRun f node (List.replicate (n + 1) FwdResult.eof)).2.length = n + 1 ∧
      (execRun f node (List.replicate (n + 1) FwdResult.eof)).1.Status = true := by
  intro n
  induction n with
  | zero =>
    intro node
    rw [List.replicate_succ, List.replicate_zero,
      execRun_cons_cont f node _ _ (by rw [execStep_eof])]
    refine ⟨rfl, ?_⟩
    show (execStep f node FwdResult.eof).1.Status = true
    rw [execStep_eof]
  | succ m ih =>
    intro node
    rw [List.replicate_succ,
      execRun_cons_cont f node _ _ (by rw [execStep_eof])]
    have h := ih (execStep f node FwdResult.eof).1
    simp [h.1, h.2]

/-! ## Theorems for the claims -/

/-- Claim C1: the claim states that when a spec's `remoteHost` is set, its
value takes precedence over the supervisor default in the host argument
passed to the Forward Primitive. The code contradicts this: at a spec with
`Host = "custom-host"` and supervisor default host `"node-1"`, the worker
step invokes `tsh.Forward` with host argument `"node-1"` (it always passes
`f.nodeHost`, src/main.go:446), even though the spec's own `Host` field is
non-empty and different. -/
theorem execForwarding_passes_default_host_not_spec_host :
    (execStep egFwd egSpecCustom FwdResult.eof).2.1.2.1 = "node-1" ∧
    egSpecCustom.Host = "custom-host" ∧
    ("node-1" : String) ≠ "custom-host" ∧
    (execStep egFwd egSpecCustom FwdResult.eof).2.1.1 = "alice" := by
  refine ⟨rfl, rfl, ?_, rfl⟩
  decide

/-- Claim C2, counterexample: on end-of-stream the worker does NOT clear
`lastError`. At a node whose `Error` is `"connection refused"`, the EOF
branch of `execForwarding` (src/main.go:447-450) sets `Status = true` but
leaves `Error` equal to `"connection refused"`, not the empty string. -/
theorem execForwarding_eof_does_not_clear_error :
    (execStep egFwd egSpecStale FwdResult.eof).1.Status = true ∧
    (execStep egFwd egSpecStale FwdResult.eof).1.Error = "connection refused" ∧
    (execStep egFwd egSpecStale FwdResult.eof).1.Error ≠ "" := by
  refine ⟨rfl, rfl, ?_⟩
  decide

/-- Claim C2, amended: on end-of-stream the worker sets `healthy = true`,
leaves `lastError` unchanged (it is not cleared), and immediately
re-enters the restart loop; after any number `n + 1` of consecutive
end-of-stream outcomes the loop has made `n + 1` Forward Primitive
invocations and still reports `healthy = true`, regardless of how many
prior restarts occurred. -/
theorem execForwarding_eof_self_healing (f : fwd) (node : ForwardingNode) (n : Nat) :
    (execStep f node FwdResult.eof).1.Status = true ∧
    (execStep f node FwdResult.eof).1.Error = node.Error ∧
    (execStep f node FwdResult.eof).2.2 = true ∧
    (execRun f node (List.replicate (n + 1) FwdResult.eof)).2.length = n + 1 ∧
    (execRun f node (List.replicate (n + 1) FwdResult.eof)).1.Status = true := by
  refine ⟨?_, ?_, ?_, ?_, ?_⟩
  · rw [execStep_eof]
  · rw [execStep_eof]
    exact defaulted_Error f node
  · rw [execStep_eof]
  · exact (execRun_replicate_eof f n node).1
  · exact (execRun_replicate_eof f n node).2

/-- Claim C3: a Forward Primitive error other than end-of-stream makes
the worker set `healthy = false`, record the error's (non-empty) text in
`lastError`, and terminate: the loop makes exactly one invocation (the
failing one) and never invokes the Forward Primitive again, whatever
results `rs` the environment would have supplied. -/
theorem execForwarding_fail_terminates (f : fwd) (node : ForwardingNode)
    (msg : String) (rs : List FwdResult) (h : msg ≠ "") :
    (execRun f node (FwdResult.fail msg :: rs)).1.Status = false ∧
    (execRun f node (FwdResult.fail msg :: rs)).1.Error = msg ∧
    (execRun f node (FwdResult.fail msg :: rs)).1.Error ≠ "" ∧
    (execRun f node (FwdResult.fail msg :: rs)).2.length = 1 := by
  simp only [execRun, execStep_fail]
  exact ⟨rfl, rfl, h, rfl⟩

/-- Witness for C3 at a concrete failing invocation. -/
theorem execForwarding_fail_terminates_witness :
    (execRun egFwd egSpecEmpty
      (FwdResult.fail "connection refused" :: [FwdResult.eof, FwdResult.eof])).2.length = 1 :=
  (execForwarding_fail_terminates _ _ "connection refused" _ (by decide)).2.2.2

/-- Claim C4: `fwd.Run` returns the error "forwarding configuration is
empty" exactly when the spec list is empty, in which case it spawns no
worker goroutine and no health-checker goroutine; for a non-empty list it
returns no error. -/
theorem fwdRun_empty_guard (f : fwd) :
    ((fwdRun f).error = some "forwarding configuration is empty" ↔ f.list = []) ∧
    (f.list = [] → (fwdRun f).workers = [] ∧ (fwdRun f).healthChecker = false) ∧
    (f.list ≠ [] → (fwdRun f).error = none) := by
  rcases f with ⟨h, l, u⟩
  cases l <;> simp [fwdRun]

/-- Witness for C4 at an empty and at a one-element configuration. -/
theorem fwdRun_empty_guard_witness :
    (fwdRun egFwd).workers = [] ∧ (fwdRun egFwdOne).error = none := by
  refine ⟨((fwdRun_empty_guard _).2.1 rfl).1, (fwdRun_empty_guard _).2.2 ?_⟩
  simp [egFwdOne]

/-- Claim C5: each health probe dials `localhost:listenPort` and
classifies the outcome in exactly two ways: on a dial failure it sets
`healthy = false`, sets `lastError` to the dial error's text and then
runs the very same restart procedure as the Worker (`execForwarding`,
embedded as `execRun`) on the node; on a dial success it sets
`healthy = true`, clears `lastError`, and makes no Forward Primitive
invocation. -/
theorem doHealthCheck_probe_classification (f : fwd) (node : ForwardingNode)
    (msg : String) (rs : List FwdResult) :
    (doHealthCheckProbe f node (DialResult.fail msg) rs).1 =
      "localhost" ++ ":" ++ node.ListenPort ∧
    ((doHealthCheckProbe f node (DialResult.fail msg) rs).2.1,
     (doHealthCheckProbe f node (DialResult.fail msg) rs).2.2) =
      execRun f { node with Status := false, Error := msg } rs ∧
    (doHealthCheckProbe f node DialResult.ok rs).2.1 =
      { node with Status := true, Error := "" } ∧
    (doHealthCheckProbe f node DialResult.ok rs).2.2 = [] := by
  refine ⟨?_, ?_, rfl, rfl⟩
  · show joinHostPort "localhost" node.ListenPort = "localhost" ++ ":" ++ node.ListenPort
    unfold joinHostPort
    rw [if_neg]
    decide
  · simp [doHealthCheckProbe]

/-- Claim C6, counterexample: the worker loop mutates the tunnel spec. At
a spec whose `UserLogin` and `Host` are empty, one iteration of
`execForwarding` overwrites both fields with the supervisor defaults
(src/main.go:437-443), so the spec is not immutable. -/
theorem execForwarding_mutates_spec :
    (execStep egFwd egSpecEmpty FwdResult.eof).1.UserLogin = "root" ∧
    (execStep egFwd egSpecEmpty FwdResult.eof).1.UserLogin ≠ egSpecEmpty.UserLogin ∧
    (execStep egFwd egSpecEmpty FwdResult.eof).1.Host = "node-1" := by
  refine ⟨rfl, ?_, rfl⟩
  decide

/-- Claim C6, amended: `listenPort` is never modified; `userLogin` and
`remoteHost` are modified only by the defaulting step of the restart
procedure, which overwrites an empty field with the supervisor default —
a non-empty field is never changed. This holds for a single worker
iteration, for any finite run of the worker loop, and for the success
path of a health probe (which touches only `Status` and `Error`). -/
theorem core_spec_field_frame (f : fwd) (node : ForwardingNode) (res : FwdResult)
    (rs : List FwdResult) (dial : List FwdResult) :
    ((execStep f node res).1.ListenPort = node.ListenPort ∧
     (execStep f node res).1.UserLogin =
       (if node.UserLogin = "" then f.defaultUser else node.UserLogin) ∧
     (execStep f node res).1.Host =
       (if node.Host = "" then f.nodeHost else node.Host)) ∧
    ((execRun f node rs).1.ListenPort = node.ListenPort ∧
     ((execRun f node rs).1.UserLogin = node.UserLogin ∨
        (node.UserLogin = "" ∧ (execRun f node rs).1.UserLogin = f.defaultUser)) ∧
     ((execRun f node rs).1.Host = node.Host ∨
        (node.Host = "" ∧ (execRun f node rs).1.Host = f.nodeHost))) ∧
    ((doHealthCheckProbe f node DialResult.ok dial).2.1.ListenPort = node.ListenPort ∧
     (doHealthCheckProbe f node DialResult.ok dial).2.1.UserLogin = node.UserLogin ∧
     (doHealthCheckProbe f node DialResult.ok dial).2.1.Host = node.Host) := by
  refine ⟨⟨?_, ?_, ?_⟩, ?_, rfl, rfl, rfl⟩
  · cases res <;>
      simp only [execStep_eof, execStep_ok, execStep_fail] <;>
      exact defaulted_ListenPort f node
  · cases res <;>
      simp only [execStep_eof, execStep_ok, execStep_fail] <;>
      exact defaulted_UserLogin f node
  · cases res <;>
      simp only [execStep_eof, execStep_ok, execStep_fail] <;>
      exact defaulted_Host f node
  · induction rs generalizing node with
    | nil => simp [execRun]
    | cons r rs ih =>
      have hstep :
          (execStep f node r).1.ListenPort = node.ListenPort ∧
          (execStep f node r).1.UserLogin =
            (if node.UserLogin = "" then f.defaultUser else node.UserLogin) ∧
          (execStep f node r).1.Host =
            (if node.Host = "" then f.nodeHost else node.Host) := by
        cases r <;>
          simp only [execStep_eof, execStep_ok, execStep_fail] <;>
          exact ⟨defaulted_ListenPort f node, defaulted_UserLogin f node,
            defaulted_Host f node⟩
      simp only [execRun]
      split
      · have h := ih (execStep f node r).1
        refine ⟨by rw [h.1, hstep.1], ?_, ?_⟩
        · rcases h.2.1 with h2 | ⟨h2, h3⟩
          · rw [h2, hstep.2.1]
            split <;> simp_all
          · rw [hstep.2.1] at h2
            split at h2 <;> simp_all
        · rcases h.2.2 with h2 | ⟨h2, h3⟩
          · rw [h2, hstep.2.2]
            split <;> simp_all
          · rw [hstep.2.2] at h2
            split at h2 <;> simp_all
      · refine ⟨hstep.1, ?_, ?_⟩
        · rw [hstep.2.1]
          split <;> simp_all
        · rw [hstep.2.2]
          split <;> simp_all

/-- Claim C7: every read of the bounded-lifetime input source blocks for
its configured duration and reports end-of-stream with zero bytes of
data; the source the worker hands to every Forward Primitive invocation
is configured with exactly the fixed idle duration of 3 minutes
(180000000000 nanoseconds). -/
theorem sleepReader_blocks_then_eof (r : sleepReader) (p : List UInt8)
    (f : fwd) (node : ForwardingNode) (res : FwdResult) :
    sleepReaderRead r p = (r.dur, 0, FwdResult.eof) ∧
    (execStep f node res).2.1.2.2 = workerIdleSource ∧
    sleepReaderRead workerIdleSource p = (3 * timeMinute, 0, FwdResult.eof) ∧
    3 * timeMinute = 180 * 1000000000 := by
  refine ⟨rfl, ?_, rfl, by decide⟩
  cases res <;> rfl

/-- Claim C9: `getUserLogin` never returns an empty user name together
with a nil error: whenever it returns without error, the user name is
non-empty. -/
theorem getUserLogin_ok_nonempty (flagRes : Except String String)
    (status : Option (List String)) (uiNew : Except String Unit)
    (uiRun : Except String String) (u : String)
    (h : getUserLogin flagRes status uiNew uiRun = Except.ok u) : u ≠ "" := by
  unfold getUserLogin at h
  rcases flagRes with e | userLogin
  · simp at h
  · by_cases h1 : userLogin = ""
    · simp only [h1, ne_eq, not_true_eq_false, if_false] at h
      rcases status with _ | users
      · simp at h
      · rcases uiNew with e | _
        · simp at h
        · rcases uiRun with e | user
          · simp at h
          · by_cases h2 : user = ""
            · simp [h2] at h
            · simp only [h2, if_false, Except.ok.injEq] at h
              subst h
              exact h2
    · simp only [ne_eq, h1, not_false_eq_true, if_true, Except.ok.injEq] at h
      subst h
      exact h1

/-- Witness for C9: the `--user` flag value `"root"` is returned and is
non-empty. -/
theorem getUserLogin_ok_nonempty_witness : ("root" : String) ≠ "" :=
  getUserLogin_ok_nonempty (Except.ok "root") none (Except.ok ())
    (Except.error "x") "root" (by rfl)

/-! ## Helper lemmas about the selector navigation -/

lemma navStep_bounds (len pos : Int) (k : NavKey)
    (h0 : 0 ≤ pos) (h1 : pos ≤ len - 1) :
    0 ≤ navStep len pos k ∧ navStep len pos k ≤ len - 1 := by
  cases k <;> simp only [navStep] <;> split <;> omega

lemma navRun_bounds (len : Int) :
    ∀ (ks : List NavKey) (pos : Int), 0 ≤ pos → pos ≤ len - 1 →
      0 ≤ navRun len pos ks ∧ navRun len pos ks ≤ len - 1 := by
  intro ks
  induction ks with
  | nil =>
    intro pos h0 h1
    exact ⟨h0, h1⟩
  | cons k ks ih =>
    intro pos h0 h1
    have h := navStep_bounds len pos k h0 h1
    exact ih (navStep len pos k) h.1 h.2

lemma navStep_empty (k : NavKey) : navStep 0 0 k = 0 := by
  cases k <;> simp [navStep]

lemma navRun_empty : ∀ (ks : List NavKey), navRun 0 0 ks = 0 := by
  intro ks
  induction ks with
  | nil => rfl
  | cons k ks ih => simp [navRun, navStep_empty, ih]

/-- Claim C8: for a non-empty user list, the cursor starts at 0 and every
navigation handler keeps it within `[0, length-1]`, so the indexing done
by `handleEnter` is always in range; for an empty user list the cursor
stays 0 and pressing Enter indexes out of bounds (`none`, a Go panic). -/
theorem loginUser_cursor_in_bounds (list : List String) (ks : List NavKey) :
    (list ≠ [] →
      0 ≤ navRun (list.length : Int) loginUserInitPos ks ∧
      navRun (list.length : Int) loginUserInitPos ks ≤ (list.length : Int) - 1 ∧
      (handleEnter list (navRun (list.length : Int) loginUserInitPos ks)).isSome = true) ∧
    (list = [] →
      handleEnter list (navRun (list.length : Int) loginUserInitPos ks) = none) := by
  constructor
  · intro hne
    have hlen : 1 ≤ (list.length : Int) := by
      have : list.length ≠ 0 := by
        simpa [List.length_eq_zero] using hne
      omega
    have h := navRun_bounds (list.length : Int) ks loginUserInitPos
      (by simp [loginUserInitPos]) (by simp [loginUserInitPos]; omega)
    refine ⟨h.1, h.2, ?_⟩
    unfold handleEnter
    rw [if_pos h.1]
    have hlt : (navRun (list.length : Int) loginUserInitPos ks).toNat < list.length := by
      omega
    have hsome := List.getElem?_eq_getElem hlt
    simp [List.get?_eq_getElem?, hsome]
  · intro he
    subst he
    simp only [List.length_nil, Nat.cast_zero, loginUserInitPos, navRun_empty]
    rfl

/-- Witness for C8 at a two-element list and at the empty list. -/
theorem loginUser_cursor_in_bounds_witness :
    (handleEnter ["root", "admin"]
      (navRun ((["root", "admin"] : List String).length : Int) loginUserInitPos
        [NavKey.tab, NavKey.tab, NavKey.arrowUp])).isSome = true ∧
    handleEnter ([] : List String)
      (navRun ((([] : List String).length : Int)) loginUserInitPos
        [NavKey.tab]) = none := by
  constructor
  · exact ((loginUser_cursor_in_bounds ["root", "admin"]
      [NavKey.tab, NavKey.tab, NavKey.arrowUp]).1 (by decide)).2.2
  · exact (loginUser_cursor_in_bounds ([] : List String) [NavKey.tab]).2 rfl

/-! ## Helper lemmas about the reversal loop -/

lemma length_swapAt (a : List String) (i j : Nat) :
    (swapAt a i j).length = a.length := by
  simp [swapAt]

lemma getElem?_swapAt {a : List String} {i j : Nat}
    (hi : i < a.length) (hj : j < a.length) (m : Nat) :
    (swapAt a i j)[m]? =
      if m = i then a[j]? else if m = j then a[i]? else a[m]? := by
  have hxi : a.getD i "" = a[i] := by
    rw [List.getD_eq_getElem?_getD, List.getElem?_eq_getElem hi]
    rfl
  have hxj : a.getD j "" = a[j] := by
    rw [List.getD_eq_getElem?_getD, List.getElem?_eq_getElem hj]
    rfl
  unfold swapAt
  rw [List.getElem?_set, List.getElem?_set, List.length_set]
  by_cases hmj : j = m
  · subst hmj
    rw [if_pos rfl, if_pos hj]
    by_cases hij : j = i
    · subst hij
      rw [if_pos rfl, hxi, List.getElem?_eq_getElem hi]
    · rw [if_neg hij, if_pos rfl, hxi, List.getElem?_eq_getElem hi]
  · rw [if_neg hmj]
    by_cases hmi : i = m
    · subst hmi
      rw [if_pos rfl, if_pos hi, if_pos rfl, hxj, List.getElem?_eq_getElem hj]
    · rw [if_neg hmi, if_neg (fun hh => hmi hh.symm),
        if_neg (fun hh => hmj hh.symm)]

lemma length_revLoop : ∀ (k : Nat) (a : List String),
    (revLoop a k).length = a.length := by
  intro k
  induction k with
  | zero => intro a; rfl
  | succ i ih =>
    intro a
    have hstep : revLoop a (i + 1) = revLoop (swapAt a i (a.length - 1 - i)) i := rfl
    rw [hstep, ih, length_swapAt]

lemma getElem?_revLoop : ∀ (k : Nat) (a : List String), 2 * k ≤ a.length →
    ∀ (m : Nat),
      (revLoop a k)[m]? =
        if m < k ∨ (a.length - k ≤ m ∧ m < a.length) then a[a.length - 1 - m]?
        else a[m]? := by
  intro k
  induction k with
  | zero =>
    intro a _ m
    rw [show revLoop a 0 = a from rfl, if_neg (by omega)]
  | succ i ih =>
    intro a h m
    have hi : i < a.length := by omega
    have hj : a.length - 1 - i < a.length := by omega
    have hstep : revLoop a (i + 1) = revLoop (swapAt a i (a.length - 1 - i)) i := rfl
    have hlen : (swapAt a i (a.length - 1 - i)).length = a.length :=
      length_swapAt a i (a.length - 1 - i)
    rw [hstep, ih (swapAt a i (a.length - 1 - i)) (by rw [hlen]; omega) m, hlen]
    simp only [getElem?_swapAt hi hj]
    split_ifs <;> first | rfl | omega | (congr 1; omega)

lemma reverse_eq_listReverse (s : List String) : reverse s = s.reverse := by
  apply List.ext_getElem?
  intro m
  rw [show reverse s = revLoop s (s.length / 2) from rfl,
    getElem?_revLoop (s.length / 2) s (by omega) m]
  by_cases hm : m < s.length
  · rw [List.getElem?_reverse hm]
    by_cases hcond : m < s.length / 2 ∨ (s.length - s.length / 2 ≤ m ∧ m < s.length)
    · rw [if_pos hcond]
    · rw [if_neg hcond]
      have hmid : s.length - 1 - m = m := by omega
      rw [hmid]
  · rw [if_neg (by omega), List.getElem?_eq_none (by omega),
      List.getElem?_eq_none (by rw [List.length_reverse]; omega)]

/-- Claim C10: the embedded `reverse` returns a list of the same length
whose element at index `i` is the input's element at index
`length - 1 - i`, and it is an involution: `reverse (reverse s) = s`.
(The embedding is a pure function of the copied slice, so the argument
itself is untouched, as in the source, which copies before swapping.) -/
theorem reverse_spec (s : List String) :
    (reverse s).length = s.length ∧
    (∀ i : Nat, i < s.length → (reverse s)[i]? = s[s.length - 1 - i]?) ∧
    reverse (reverse s) = s := by
  have h := reverse_eq_listReverse
  refine ⟨?_, ?_, ?_⟩
  · rw [h, List.length_reverse]
  · intro i hi
    rw [h, List.getElem?_reverse hi]
  · rw [h, h, List.reverse_reverse]

/-- Witness for C10 at a concrete three-element list. -/
theorem reverse_spec_witness :
    (reverse ["a", "b", "c"]).length = (["a", "b", "c"] : List String).length ∧
    (reverse ["a", "b", "c"])[0]? =
      (["a", "b", "c"] : List String)[(["a", "b", "c"] : List String).length - 1 - 0]? ∧
    reverse (reverse ["a", "b", "c"]) = ["a", "b", "c"] :=
  ⟨(reverse_spec _).1, (reverse_spec _).2.1 0 (by decide), (reverse_spec _).2.2⟩

end Tpot
